import Mathlib

/-!
Verification model of `screenpipe-vision/src/core.rs`.

The file shallowly embeds the continuous screen-capture core:
`continuous_capture` (the sampling / selection / dispatch loop),
`process_ocr_task` (the single-flight OCR worker), and
`parse_apple_ocr_result` / `parse_json_output` (Apple OCR JSON
normalization).  Floating-point `f64` scores are modelled as exact
rationals (the loop only ever compares scores, never does arithmetic
on them), `Instant` timestamps as naturals, images as opaque
identifiers, and the effects of the external world (screenshot
capture outcomes, scorer outcomes, OCR backend outputs, channel send
outcomes, completion instants of the spawned OCR task) as explicit
per-tick inputs.
-/

namespace Screenpipe

/-- Opaque raster image; the core never inspects pixels, so an image is
modelled by an identity.  `Arc<DynamicImage>` sharing and `.clone()` both
preserve this identity. -/
structure Image where
  ident : Nat
deriving DecidableEq

/-- Window capture entry `(DynamicImage, String, String, bool)` as produced by
`capture_screenshot` and destructured in `process_ocr_task` as
`(window_image, window_app_name, window_name, focused)`. -/
abbrev WindowImage := Image × String × String × Bool

/-- Mirror of `struct MaxAverageFrame` (core.rs lines 176-184).  The
`result_tx` channel handle carries no data relevant to selection and is
omitted; `Instant` timestamps are naturals. -/
structure MaxAverageFrame where
  image : Image
  window_images : List WindowImage
  image_hash : Nat
  frame_number : Nat
  timestamp : Nat
  average : ℚ
deriving DecidableEq

/-- Mutable state of the `continuous_capture` loop (core.rs lines 60-64):
`frame_counter`, `previous_image`, `max_average`, `max_avg_value`, plus the
shared atomic `ocr_task_running` dispatch gate. -/
structure CaptureState where
  frame_counter : Nat
  previous_image : Option Image
  max_average : Option MaxAverageFrame
  max_avg_value : ℚ
  ocr_task_running : Bool
deriving DecidableEq

/-- Initial loop state (core.rs lines 60-64): counter `0`, no previous image,
no candidate, `max_avg_value = 0.0`, gate `false`. -/
def initialCaptureState : CaptureState :=
  { frame_counter := 0
    previous_image := none
    max_average := none
    max_avg_value := 0
    ocr_task_running := false }

/-- Environment of one loop iteration: the `capture_screenshot` outcome
(`Ok(image, window_images, image_hash, _duration)` or `Err`), the
`compare_with_previous_image` outcome, whether the in-flight OCR task (if
any) completed before this tick's gate load, and the value `Instant::now()`
would return during this tick. -/
structure TickInput where
  capture : Option (Image × List WindowImage × Nat)
  score_result : Except Unit ℚ
  task_finishes : Bool
  now : Nat

/-- Observable outcome of one loop iteration: capture failure, a skipped
frame (with the effective score), or an offered (non-skipped) frame with its
effective score, its frame number, and the candidate dispatched this tick,
if any. -/
inductive TickOutput where
  | captureFail : TickOutput
  | skipped (score : ℚ) : TickOutput
  | offered (score : ℚ) (frame_no : Nat) (dispatched : Option MaxAverageFrame) : TickOutput
deriving DecidableEq

/-- Raw scorer value as used at core.rs lines 82-96: the comparison result,
with errors substituted by `0.0`. -/
def rawScore (i : TickInput) : ℚ :=
  match i.score_result with
  | .ok a => a
  | .error _ => 0

/-- The constant `0.006` of core.rs line 106, as the exact rational
`3/500`. -/
def lowDiffThreshold : ℚ := ⟨3, 500, by decide, by decide⟩

/-- Body of one `loop` iteration of `continuous_capture` (core.rs lines
69-170), up to but excluding the bottom-of-loop `frame_counter += 1` at line
172.  The skip branch (lines 106-114) performs its own increment and
`continue`s past the bottom increment, which is why it is applied here.
Possible completion of the spawned OCR task is modelled as clearing the gate
at the start of the tick, before the gate load at line 131. -/
def tickMain (s : CaptureState) (i : TickInput) : CaptureState × TickOutput :=
  let running := s.ocr_task_running && !i.task_finishes
  let s0 := { s with ocr_task_running := running }
  match i.capture with
  | none => (s0, .captureFail)
  | some (image, window_images, image_hash) =>
    let current_average := rawScore i
    let current_average := if s0.previous_image.isNone then 1 else current_average
    if current_average < lowDiffThreshold then
      ({ s0 with frame_counter := s0.frame_counter + 1 }, .skipped current_average)
    else
      let s1 :=
        if current_average > s0.max_avg_value then
          { s0 with
              max_average := some
                { image := image
                  window_images := window_images
                  image_hash := image_hash
                  frame_number := s0.frame_counter
                  timestamp := i.now
                  average := current_average }
              max_avg_value := current_average }
        else s0
      let s2 := { s1 with previous_image := some image }
      if s2.ocr_task_running then
        (s2, .offered current_average s.frame_counter none)
      else
        match s2.max_average with
        | some max_avg_frame =>
          ({ s2 with
              max_average := none
              ocr_task_running := true
              frame_counter := 0
              max_avg_value := 0 },
           .offered current_average s.frame_counter (some max_avg_frame))
        | none => (s2, .offered current_average s.frame_counter none)

/-- Bottom-of-loop `frame_counter += 1` (core.rs line 172), reached on every
path except the skip branch's `continue`. -/
def tickEnd (s : CaptureState) (o : TickOutput) : CaptureState :=
  match o with
  | .skipped _ => s
  | _ => { s with frame_counter := s.frame_counter + 1 }

/-- One complete iteration of the `continuous_capture` loop. -/
def captureTick (s : CaptureState) (i : TickInput) : CaptureState × TickOutput :=
  let r := tickMain s i
  (tickEnd r.1 r.2, r.2)

/-- Run of the loop over a list of per-tick environments, returning the final
state and the per-tick outputs in order. -/
def runTicks : CaptureState → List TickInput → CaptureState × List TickOutput
  | s, [] => (s, [])
  | s, i :: rest =>
      let r := captureTick s i
      let k := runTicks r.1 rest
      (k.1, r.2 :: k.2)

/-- Final state of a run. -/
def runState (s : CaptureState) (l : List TickInput) : CaptureState :=
  (runTicks s l).1

/-- Output trace of a run. -/
def runOutputs (s : CaptureState) (l : List TickInput) : List TickOutput :=
  (runTicks s l).2

/-- One election step over `(max_avg_value, summary of max_average)`,
mirroring core.rs lines 116-127: a sample with score `p.1` and frame number
`p.2` replaces the incumbent exactly when its score is strictly greater than
the current `max_avg_value`. -/
def electStep (acc : ℚ × Option (ℚ × Nat)) (p : ℚ × Nat) : ℚ × Option (ℚ × Nat) :=
  if p.1 > acc.1 then (p.1, some p) else acc

/-- Election result over a whole window of offers, starting from the
post-dispatch state `(0.0, none)`. -/
def electFold (w : List (ℚ × Nat)) : ℚ × Option (ℚ × Nat) :=
  w.foldl electStep (0, none)

/-- Score and frame number recorded in a buffered candidate. -/
def candSummary (f : MaxAverageFrame) : ℚ × Nat :=
  (f.average, f.frame_number)

/-- Dispatches of a run, each paired with the `(score, frame number)` pairs
of the non-skipped samples offered since the previous dispatch, the
dispatching tick's own offer included.  `w` accumulates the offers of the
current window. -/
def dispatchesFrom : CaptureState → List (ℚ × Nat) → List TickInput →
    List (MaxAverageFrame × List (ℚ × Nat))
  | _, _, [] => []
  | s, w, i :: rest =>
    let r := captureTick s i
    match r.2 with
    | .offered sc fn (some f) => (f, w ++ [(sc, fn)]) :: dispatchesFrom r.1 [] rest
    | .offered sc fn none => dispatchesFrom r.1 (w ++ [(sc, fn)]) rest
    | _ => dispatchesFrom r.1 w rest

/-- Monitor handle returned by `get_monitor_by_id`; opaque to the core. -/
structure Monitor where
  ident : Nat
deriving DecidableEq

/-- Abnormal termination of a Rust task, as caused by `Option::unwrap` on a
`None`. -/
inductive RustAbort where
  | unwrapOnNone : RustAbort
deriving DecidableEq

/-- Start-up of `continuous_capture` (core.rs line 66):
`get_monitor_by_id(monitor_id).await.unwrap()`.  `get_monitor_by_id` lives in
`monitor.rs`, which is not among the sources; its outcome for the requested
id is supplied by the environment.  `unwrap` of `None` is a Rust panic that
aborts the capture task before the loop is entered; the panic is modelled as
an error value. -/
def continuousCaptureSetup (monitor_lookup : Option Monitor) : Except RustAbort Monitor :=
  match monitor_lookup with
  | some monitor => .ok monitor
  | none => .error .unwrapOnNone

/-- JSON values in the image of `serde_json::Value`.  Numbers are modelled as
exact rationals; every `f64` arising in the sources has a terminating decimal
expansion in the inputs of interest.  Objects are association lists assumed
duplicate-free (serde maps cannot hold duplicate keys). -/
inductive Json where
  | null : Json
  | bool (b : Bool) : Json
  | num (q : ℚ) : Json
  | str (s : String) : Json
  | arr (elems : List Json) : Json
  | obj (fields : List (String × Json)) : Json

/-- Indexing `value[key]` of `serde_json::Value`: the stored value when
`value` is an object containing `key`, and `Value::Null` otherwise. -/
def Json.getField : Json → String → Json
  | .obj fields, key =>
    match fields.lookup key with
    | some v => v
    | none => .null
  | _, _ => .null

/-- Mirror of `Value::as_str`. -/
def Json.asStr : Json → Option String
  | .str s => some s
  | _ => none

/-- Mirror of `Value::as_f64`: defined exactly on numbers. -/
def Json.asF64 : Json → Option ℚ
  | .num q => some q
  | _ => none

/-- Mirror of `Value::as_array`. -/
def Json.asArr : Json → Option (List Json)
  | .arr elems => some elems
  | _ => none

/-- Fractional digits of `rem / den` (with `rem < den`), most significant
first, stopping at the last nonzero digit; `fuel` bounds the digit count and
covers every shortest `f64` decimal representation. -/
def fracDigits (den : Nat) : Nat → Nat → String
  | _, 0 => ""
  | rem, fuel + 1 =>
    if rem = 0 then ""
    else toString (rem * 10 / den) ++ fracDigits den (rem * 10 % den) fuel

/-- Display of an `f64` by Rust's `ToString` (as in
`.unwrap_or(0.0).to_string()`), on floats whose value is the given rational:
the shortest decimal expansion, with no fractional part printed for integral
values (`2.0` prints as `"2"`, `1.5` as `"1.5"`, `0.9` as `"0.9"`). -/
def f64ToString (q : ℚ) : String :=
  let sign := if q.num < 0 then "-" else ""
  let n := q.num.natAbs
  let ip := n / q.den
  let rem := n % q.den
  if rem = 0 then sign ++ toString ip
  else sign ++ toString ip ++ "." ++ fracDigits q.den rem 20

/-- Fallback value built by `parse_apple_ocr_result` when the raw Apple OCR
output fails to parse (core.rs lines 283-290). -/
def appleFallbackJson : Json :=
  .obj [("ocrResult", .str ""), ("textElements", .arr []), ("overallConfidence", .num 0)]

/-- Uniform token object built for one `textElements` entry (core.rs lines
303-317), in source field order.  Missing or wrong-typed source fields
default to `0.0` / `""` through `unwrap_or`. -/
def transcodeTextElement (element : Json) : Json :=
  .obj
    [ ("level", .str "0")
    , ("page_num", .str "0")
    , ("block_num", .str "0")
    , ("par_num", .str "0")
    , ("line_num", .str "0")
    , ("word_num", .str "0")
    , ("left", .str (f64ToString (((element.getField "boundingBox").getField "x").asF64.getD 0)))
    , ("top", .str (f64ToString (((element.getField "boundingBox").getField "y").asF64.getD 0)))
    , ("width", .str (f64ToString (((element.getField "boundingBox").getField "width").asF64.getD 0)))
    , ("height", .str (f64ToString (((element.getField "boundingBox").getField "height").asF64.getD 0)))
    , ("conf", .str (f64ToString ((element.getField "confidence").asF64.getD 0)))
    , ("text", .str ((element.getField "text").asStr.getD "")) ]

/-- Mirror of `parse_apple_ocr_result` (core.rs lines 282-327).  The
function's string input is represented by its `serde_json::from_str` outcome;
parse failure selects the fallback object.  The returned token-JSON string is
represented at the value level by the list of uniform token objects
(`serde_json::to_string` at line 321 is infallible on these values; its `"[]"`
fallback is unreachable). -/
def parse_apple_ocr_result (parse_outcome : Except String Json) : String × List Json :=
  let parsed_result :=
    match parse_outcome with
    | .ok v => v
    | .error _ => appleFallbackJson
  let text := (parsed_result.getField "ocrResult").asStr.getD ""
  let text_elements := (parsed_result.getField "textElements").asArr.getD []
  (text, text_elements.map transcodeTextElement)

/-- Decode of one token object into a `HashMap<String, String>`: succeeds
exactly when the value is an object all of whose values are strings. -/
def jsonToStringMap : Json → Option (List (String × String))
  | .obj fields =>
    fields.mapM fun kv =>
      match kv.2 with
      | .str s => some (kv.1, s)
      | _ => none
  | _ => none

/-- Mirror of `parse_json_output` (core.rs lines 271-279):
`serde_json::from_str::<Vec<HashMap<String, String>>>` with parse failures
yielding an empty vector.  The string input is represented by its parse
outcome into a JSON value; decoding succeeds exactly when that value is an
array of all-string objects. -/
def parse_json_output (parse_outcome : Except String Json) : List (List (String × String)) :=
  match parse_outcome with
  | .error _ => []
  | .ok v =>
    match v with
    | .arr elems =>
      match elems.mapM jsonToStringMap with
      | some maps => maps
      | none => []
    | _ => []

/-- Modelled from the spec: the `OcrEngine` enumeration is declared in
`utils.rs`, which is not among the sources.  Spec section 6 enumerates the
variants consumed by `process_ocr_task` — `Unstructured`, `Tesseract`,
`WindowsNative`, `AppleNative` — and states that any other variant reaches
the "unsupported OCR engine" arm of the match at core.rs lines 206-221. -/
inductive OcrEngine where
  | unstructured : OcrEngine
  | tesseract : OcrEngine
  | windowsNative : OcrEngine
  | appleNative : OcrEngine
  | otherVariant : OcrEngine
deriving DecidableEq

/-- Compile-time platform flags: the `WindowsNative` and `AppleNative` match
arms exist only under `cfg(target_os = "windows")` / `cfg(target_os =
"macos")`; on other platforms those engines fall through to the unsupported
arm. -/
structure Platform where
  windows : Bool
  macos : Bool

/-- Environment for the OCR of a single window image: the outcome of each
possible backend.  Token-JSON strings are represented by their
`serde_json::from_str` parse outcomes, as in `parse_json_output`. -/
structure WindowOcrEnv where
  cloud : Except String (String × Except String Json)
  tesseract : String × Except String Json
  windowsOut : String × Except String Json
  appleRaw : Except String Json

/-- Backend selection of `process_ocr_task` (core.rs lines 206-221) for one
window image.  `perform_ocr_cloud` is the only fallible backend (its error is
propagated by `?`); `perform_ocr_tesseract` and `perform_ocr_windows` return
directly; `AppleNative` transcodes the raw Apple output through
`parse_apple_ocr_result` (serialization and re-parse of the uniform token
array round-trip at the value level). -/
def ocrBackendCall (p : Platform) (eng : OcrEngine) (env : WindowOcrEnv) :
    Except String (String × Except String Json) :=
  match eng with
  | .unstructured => env.cloud
  | .tesseract => .ok env.tesseract
  | .windowsNative =>
    if p.windows then .ok env.windowsOut else .error "Unsupported OCR engine"
  | .appleNative =>
    if p.macos then
      let r := parse_apple_ocr_result env.appleRaw
      .ok (r.1, .ok (.arr r.2))
    else .error "Unsupported OCR engine"
  | .otherVariant => .error "Unsupported OCR engine"

/-- Mirror of `struct WindowOcrResult` (core.rs lines 31-39), with the
`HashMap` token maps as association lists. -/
structure WindowOcrResult where
  window_name : String
  app_name : String
  image : Image
  text : String
  text_json : List (List (String × String))
  focused : Bool

/-- Mirror of `struct CaptureResult` (core.rs lines 23-29). -/
structure CaptureResult where
  image : Image
  frame_number : Nat
  timestamp : Nat
  window_ocr_results : List WindowOcrResult

/-- Per-window OCR loop of `process_ocr_task` (core.rs lines 203-231): each
window image is OCRed through the selected backend; a backend error aborts
the whole task through `?` / `return Err`; on success a `WindowOcrResult` is
accumulated, its token string parsed by `parse_json_output`.  `env idx` is
the environment of the `idx`-th window. -/
def ocrWindowImages (p : Platform) (eng : OcrEngine) (env : Nat → WindowOcrEnv) :
    List WindowImage → Nat → Except String (List WindowOcrResult)
  | [], _ => .ok []
  | (window_image, window_app_name, window_name, focused) :: rest, idx =>
    match ocrBackendCall p eng (env idx) with
    | .error e => .error e
    | .ok out =>
      match ocrWindowImages p eng env rest (idx + 1) with
      | .error e => .error e
      | .ok tail =>
        .ok
          ({ window_name := window_name
             app_name := window_app_name
             image := window_image
             text := out.1
             text_json := parse_json_output out.2
             focused := focused } :: tail)

/-- Mirror of `process_ocr_task` (core.rs lines 186-269).  Returns the task's
`Result` together with the `CaptureResult` published on the channel, if any.
A backend error aborts before the send; a send failure (`send_succeeds =
false`, the channel being closed) publishes nothing and ends the task in
error; otherwise the assembled result is published and the task succeeds.
The `save_text_files` hook only has logged-and-swallowed effects and carries
no data flow, so it does not appear. -/
def process_ocr_task (p : Platform) (eng : OcrEngine) (image : Image)
    (window_images : List WindowImage) (env : Nat → WindowOcrEnv)
    (frame_number : Nat) (timestamp : Nat) (send_succeeds : Bool) :
    Except String Unit × Option CaptureResult :=
  match ocrWindowImages p eng env window_images 0 with
  | .error e => (.error e, none)
  | .ok window_ocr_results =>
    let capture_result : CaptureResult :=
      { image := image
        frame_number := frame_number
        timestamp := timestamp
        window_ocr_results := window_ocr_results }
    if send_succeeds then (.ok (), some capture_result)
    else (.error "Failed to send OCR result", none)

/-- The closure spawned at dispatch (core.rs lines 146-161): it awaits
`process_ocr_task`, logs the error if the task failed, and then
unconditionally stores `false` into the shared `ocr_task_running` gate.
Returns the logged error (if any) and the value stored into the gate. -/
def spawnedOcrTask (task_result : Except String Unit) : Option String × Bool :=
  match task_result with
  | .ok _ => (none, false)
  | .error e => (some e, false)

/-- Concrete image used by the concrete runs below. -/
def imgA : Image := ⟨0⟩

/-- Second concrete image used by the concrete runs below. -/
def imgB : Image := ⟨1⟩

/-- A tick whose capture succeeds with `imgA` and whose scorer returns `0.0`:
from the initial state it forces score `1.0` and dispatches. -/
def tickDispatchInput : TickInput :=
  { capture := some (imgA, [], 7)
    score_result := .ok 0
    task_finishes := false
    now := 5 }

/-- A tick whose capture succeeds with `imgB` and whose scorer returns
`0.001`, below the `0.006` threshold. -/
def tickLowScoreInput : TickInput :=
  { capture := some (imgB, [], 8)
    score_result := .ok ⟨1, 1000, by decide, by decide⟩
    task_finishes := false
    now := 6 }

/-- The candidate elected and dispatched by `tickDispatchInput` from the
initial state. -/
def firstDispatchCand : MaxAverageFrame :=
  { image := imgA
    window_images := []
    image_hash := 7
    frame_number := 0
    timestamp := 5
    average := 1 }

/-- A tick whose screenshot capture fails. -/
def failTickInput : TickInput :=
  { capture := none
    score_result := .error ()
    task_finishes := false
    now := 0 }

/-- A platform with neither the Windows nor the macOS native OCR arm. -/
def basicPlatform : Platform :=
  { windows := false, macos := false }

/-- A benign per-window OCR environment. -/
def envOk : WindowOcrEnv :=
  { cloud := .ok ("text", .ok (.arr []))
    tesseract := ("text", .ok (.arr []))
    windowsOut := ("text", .ok (.arr []))
    appleRaw := .ok appleFallbackJson }

/-- Key set of the uniform token-JSON objects, in the order emitted at
core.rs lines 303-317. -/
def uniformTokenKeys : List String :=
  ["level", "page_num", "block_num", "par_num", "line_num", "word_num",
   "left", "top", "width", "height", "conf", "text"]

/-- Uniform token object produced from a source element whose fields are all
missing or wrong-typed: every positional value defaults to `0.0` (printed
`"0"`) and the text to `""`. -/
def zeroTokenElement : Json :=
  .obj
    [ ("level", .str "0")
    , ("page_num", .str "0")
    , ("block_num", .str "0")
    , ("par_num", .str "0")
    , ("line_num", .str "0")
    , ("word_num", .str "0")
    , ("left", .str "0")
    , ("top", .str "0")
    , ("width", .str "0")
    , ("height", .str "0")
    , ("conf", .str "0")
    , ("text", .str "") ]

/-- The scenario S5 Apple OCR payload:
`ocrResult = "hi"`, one text element with bounding box `x = 1.5`, `y = 2.0`,
`width = 3.0`, `height = 4.0`, confidence `0.9`, text `"hi"`. -/
def s5Input : Json :=
  .obj
    [ ("ocrResult", .str "hi")
    , ("textElements", .arr
        [ .obj
            [ ("boundingBox", .obj
                [ ("x", .num ⟨3, 2, by decide, by decide⟩)
                , ("y", .num 2)
                , ("width", .num 3)
                , ("height", .num 4) ])
            , ("confidence", .num ⟨9, 10, by decide, by decide⟩)
            , ("text", .str "hi") ] ]) ]

/-- Uniform token object expected from the S5 element. -/
def s5ExpectedToken : Json :=
  .obj
    [ ("level", .str "0")
    , ("page_num", .str "0")
    , ("block_num", .str "0")
    , ("par_num", .str "0")
    , ("line_num", .str "0")
    , ("word_num", .str "0")
    , ("left", .str "1.5")
    , ("top", .str "2")
    , ("width", .str "3")
    , ("height", .str "4")
    , ("conf", .str "0.9")
    , ("text", .str "hi") ]

/-! Helper lemmas about single ticks. -/

/-- A tick that launches a dispatch leaves the selector reset: no candidate,
zero best score, zero frame counter (before the bottom-of-loop increment). -/
theorem tickMain_dispatch_reset (s : CaptureState) (i : TickInput) (s1 : CaptureState)
    (sc : ℚ) (fn : Nat) (f : MaxAverageFrame)
    (hr : tickMain s i = (s1, .offered sc fn (some f))) :
    s1.frame_counter = 0 ∧ s1.max_average = none ∧ s1.max_avg_value = 0 := by
  simp only [tickMain] at hr
  repeat' split at hr
  all_goals simp only [Prod.mk.injEq] at hr
  all_goals obtain ⟨rfl, hrest⟩ := hr
  all_goals simp_all

/-- A tick that launches no dispatch increments the frame counter by exactly
one over the whole iteration. -/
theorem tick_no_dispatch_increments (s : CaptureState) (i : TickInput) (s1 : CaptureState)
    (o : TickOutput) (hr : tickMain s i = (s1, o))
    (hno : ∀ sc fn f, o ≠ .offered sc fn (some f)) :
    (tickEnd s1 o).frame_counter = s.frame_counter + 1 := by
  simp only [tickMain] at hr
  repeat' split at hr
  all_goals simp only [Prod.mk.injEq] at hr
  all_goals obtain ⟨rfl, rfl⟩ := hr
  all_goals
    first
      | (exact absurd rfl (hno _ _ _))
      | simp_all [tickEnd]

/-- A dispatching tick found the gate clear and leaves it set. -/
theorem tickMain_dispatch_gate (s : CaptureState) (i : TickInput) (s1 : CaptureState)
    (sc : ℚ) (fn : Nat) (f : MaxAverageFrame)
    (hr : tickMain s i = (s1, .offered sc fn (some f))) :
    (s.ocr_task_running && !i.task_finishes) = false ∧ s1.ocr_task_running = true := by
  simp only [tickMain] at hr
  repeat' split at hr
  all_goals simp only [Prod.mk.injEq] at hr
  all_goals obtain ⟨rfl, hrest⟩ := hr
  all_goals simp_all

/-- A non-dispatching tick leaves the gate exactly as the task-completion
event set it. -/
theorem tick_no_dispatch_gate (s : CaptureState) (i : TickInput) (s1 : CaptureState)
    (o : TickOutput) (hr : tickMain s i = (s1, o))
    (hno : ∀ sc fn f, o ≠ .offered sc fn (some f)) :
    s1.ocr_task_running = (s.ocr_task_running && !i.task_finishes) := by
  simp only [tickMain] at hr
  repeat' split at hr
  all_goals simp only [Prod.mk.injEq] at hr
  all_goals obtain ⟨rfl, rfl⟩ := hr
  all_goals
    first
      | (exact absurd rfl (hno _ _ _))
      | simp_all

/-- An offered (non-skipped) tick records the captured full image into
`previous_image`. -/
theorem tick_offered_previous_image (s : CaptureState) (i : TickInput) (s1 : CaptureState)
    (sc : ℚ) (fn : Nat) (d : Option MaxAverageFrame)
    (hr : tickMain s i = (s1, .offered sc fn d)) :
    ∃ img ws hsh, i.capture = some (img, ws, hsh) ∧ s1.previous_image = some img := by
  simp only [tickMain] at hr
  repeat' split at hr
  all_goals simp only [Prod.mk.injEq] at hr
  all_goals obtain ⟨rfl, hrest⟩ := hr
  all_goals simp_all

/-- A skipped tick changes nothing but the frame counter and the gate; in
particular `previous_image`, `max_average` and `max_avg_value` are kept. -/
theorem tick_skip_preserves (s : CaptureState) (i : TickInput) (s1 : CaptureState)
    (sc : ℚ) (hr : tickMain s i = (s1, .skipped sc)) :
    s1.previous_image = s.previous_image ∧ s1.max_average = s.max_average ∧
      s1.max_avg_value = s.max_avg_value := by
  simp only [tickMain] at hr
  repeat' split at hr
  all_goals simp only [Prod.mk.injEq] at hr
  all_goals obtain ⟨rfl, hrest⟩ := hr
  all_goals simp_all

/-! Claim C7. -/

/-- C7: immediately after a dispatch is launched the selector is reset —
`max_avg_value` (the best score) is `0.0`, the best candidate `max_average`
is empty, and the per-dispatch frame counter is `0` — and between dispatches
the frame counter is monotonically non-decreasing: a tick that launches no
dispatch always increments it by exactly one, and only a dispatch launch
ever resets it to zero. -/
theorem dispatch_resets_selector_and_counter_monotone (s : CaptureState) (i : TickInput) :
    (∀ s1 sc fn f, tickMain s i = (s1, .offered sc fn (some f)) →
      s1.max_avg_value = 0 ∧ s1.max_average = none ∧ s1.frame_counter = 0) ∧
    ((∀ sc fn f, (captureTick s i).2 ≠ .offered sc fn (some f)) →
      (captureTick s i).1.frame_counter = s.frame_counter + 1) := by
  constructor
  · intro s1 sc fn f hr
    obtain ⟨h1, h2, h3⟩ := tickMain_dispatch_reset s i s1 sc fn f hr
    exact ⟨h3, h2, h1⟩
  · intro hno
    obtain ⟨s1, o, hr⟩ : ∃ s1 o, tickMain s i = (s1, o) := ⟨_, _, rfl⟩
    have : (captureTick s i) = (tickEnd s1 o, o) := by
      simp [captureTick, hr]
    rw [this] at hno ⊢
    exact tick_no_dispatch_increments s i s1 o hr hno

/-- Witness for C7 at a concrete dispatching tick. -/
theorem dispatch_resets_selector_and_counter_monotone_witness :
    (tickMain initialCaptureState tickDispatchInput).1.max_avg_value = 0 ∧
    (tickMain initialCaptureState tickDispatchInput).1.max_average = none ∧
    (tickMain initialCaptureState tickDispatchInput).1.frame_counter = 0 :=
  (dispatch_resets_selector_and_counter_monotone initialCaptureState tickDispatchInput).1
    _ 1 0 firstDispatchCand rfl

/-! Claim C2 (corrected): skipped ticks do not update `previous_image`. -/

/-- C2 counterexample: a concrete run in which the second tick is a
successful capture (of `imgB`) that is skipped by the `0.006` gate, and after
which `previous_image` still holds the first tick's image `imgA`, not
`imgB`. -/
theorem skipped_tick_previous_image_cex :
    (captureTick (captureTick initialCaptureState tickDispatchInput).1 tickLowScoreInput).2
        = .skipped ⟨1, 1000, by decide, by decide⟩ ∧
    tickLowScoreInput.capture = some (imgB, [], 8) ∧
    (captureTick (captureTick initialCaptureState tickDispatchInput).1
        tickLowScoreInput).1.previous_image = some imgA ∧
    imgA ≠ imgB := by
  refine ⟨rfl, rfl, rfl, ?_⟩
  decide

/-- C2 amended: on every successful capture tick that passes the `0.006`
threshold check, `previous_image` is set to that tick's full image regardless
of whether the sample became the new best; on skipped ticks `previous_image`
is left unchanged. -/
theorem previous_image_updated_on_offer (s : CaptureState) (i : TickInput) :
    (∀ s1 sc fn d, tickMain s i = (s1, .offered sc fn d) →
      ∃ img ws hsh, i.capture = some (img, ws, hsh) ∧ s1.previous_image = some img) ∧
    (∀ s1 sc, tickMain s i = (s1, .skipped sc) → s1.previous_image = s.previous_image) := by
  constructor
  · exact fun s1 sc fn d hr => tick_offered_previous_image s i s1 sc fn d hr
  · exact fun s1 sc hr => (tick_skip_preserves s i s1 sc hr).1

/-- Witness for C2's amended claim at a concrete offered tick. -/
theorem previous_image_updated_on_offer_witness :
    ∃ img ws hsh, tickDispatchInput.capture = some (img, ws, hsh) ∧
      (tickMain initialCaptureState tickDispatchInput).1.previous_image = some img :=
  (previous_image_updated_on_offer initialCaptureState tickDispatchInput).1
    _ 1 0 (some firstDispatchCand) rfl

/-! Claim C9. -/

/-- C9: at most one OCR task is in flight — a dispatch is launched only when
the `ocr_task_running` gate reads `false` (after any completion of the
in-flight task), the gate is set before the task is spawned, a
non-dispatching tick never changes the gate beyond the task-completion event
itself, and the spawned task stores `false` into the gate on every exit path
(success or error). -/
theorem single_flight_gate (s : CaptureState) (i : TickInput) :
    (∀ s1 sc fn f, tickMain s i = (s1, .offered sc fn (some f)) →
      (s.ocr_task_running && !i.task_finishes) = false ∧ s1.ocr_task_running = true) ∧
    (∀ s1 o, tickMain s i = (s1, o) → (∀ sc fn f, o ≠ .offered sc fn (some f)) →
      s1.ocr_task_running = (s.ocr_task_running && !i.task_finishes)) ∧
    (∀ task_result : Except String Unit, (spawnedOcrTask task_result).2 = false) := by
  refine ⟨fun s1 sc fn f hr => tickMain_dispatch_gate s i s1 sc fn f hr,
    fun s1 o hr hno => tick_no_dispatch_gate s i s1 o hr hno,
    fun task_result => ?_⟩
  cases task_result <;> rfl

/-- Witness for C9 at a concrete dispatching tick. -/
theorem single_flight_gate_witness :
    (initialCaptureState.ocr_task_running && !tickDispatchInput.task_finishes) = false ∧
    (tickMain initialCaptureState tickDispatchInput).1.ocr_task_running = true :=
  (single_flight_gate initialCaptureState tickDispatchInput).1
    _ 1 0 firstDispatchCand rfl

/-! Claim C4 (corrected): the loop body survives every per-tick failure, but
the start-up monitor lookup is `unwrap`ped and panics when the monitor id is
unknown. -/

/-- C4 counterexample: when `get_monitor_by_id` finds no monitor for the
requested id, the `unwrap` at core.rs line 66 panics (aborts the capture
task) before the loop is entered. -/
theorem monitor_lookup_unwrap_cex :
    continuousCaptureSetup none = .error .unwrapOnNone := rfl

/-- C4 amended: once the start-up monitor lookup succeeds, no operation of
the loop aborts — every tick, whatever its capture / scorer / gate outcome,
produces exactly one outcome and the loop continues to the next tick, so a
run consumes its whole input; the only abort is the start-up `unwrap` of a
failed monitor lookup. -/
theorem loop_survives_per_tick_failures :
    (∀ monitor, continuousCaptureSetup (some monitor) = .ok monitor) ∧
    (∀ l : List TickInput, ∀ s, (runOutputs s l).length = l.length) := by
  refine ⟨fun monitor => rfl, fun l => ?_⟩
  induction l with
  | nil => intro s; rfl
  | cons i rest ih =>
    intro s
    simp only [runOutputs, runTicks, List.length_cons]
    exact congrArg (· + 1) (ih _)

/-! Claim C3. -/

/-- C3: a `CaptureResult` is published on the channel exactly when
`process_ocr_task` returns `Ok`; an OCR backend error — the
"Unsupported OCR engine" error included, whenever there is at least one
window to OCR — publishes nothing, and a tick whose capture fails launches
no OCR task at all. -/
theorem capture_result_published_iff_ok :
    (∀ p eng img ws env fn ts sendOk,
      ((process_ocr_task p eng img ws env fn ts sendOk).2.isSome = true ↔
        (process_ocr_task p eng img ws env fn ts sendOk).1 = .ok ())) ∧
    (∀ p img ws env fn ts sendOk, ws ≠ [] →
      process_ocr_task p .otherVariant img ws env fn ts sendOk
        = (.error "Unsupported OCR engine", none)) ∧
    (∀ s i, i.capture = none → (captureTick s i).2 = .captureFail) := by
  refine ⟨fun p eng img ws env fn ts sendOk => ?_,
    fun p img ws env fn ts sendOk hne => ?_, fun s i hc => ?_⟩
  · rcases h : ocrWindowImages p eng env ws 0 with e | results
    · simp [process_ocr_task, h]
    · cases sendOk <;> simp [process_ocr_task, h]
  · rcases ws with _ | ⟨⟨wi, an, wn, fc⟩, rest⟩
    · exact absurd rfl hne
    · simp [process_ocr_task, ocrWindowImages, ocrBackendCall]
  · simp [captureTick, tickMain, hc]

/-- Witness for C3: the unsupported-engine error on a one-window task and a
failed-capture tick, both concrete. -/
theorem capture_result_published_iff_ok_witness :
    process_ocr_task basicPlatform .otherVariant imgA [(imgA, "app", "win", true)]
        (fun _ => envOk) 0 0 true = (.error "Unsupported OCR engine", none) ∧
    (captureTick initialCaptureState failTickInput).2 = .captureFail :=
  ⟨capture_result_published_iff_ok.2.1 basicPlatform imgA [(imgA, "app", "win", true)]
      (fun _ => envOk) 0 0 true (by simp),
    capture_result_published_iff_ok.2.2 initialCaptureState failTickInput rfl⟩

/-! Claim C8. -/

/-- C8: for every Apple OCR payload, the transcoder returns the `ocrResult`
string as the text, one uniform token object per `textElements` entry, each
an object with exactly the key set `level, page_num, block_num, par_num,
line_num, word_num, left, top, width, height, conf, text` and all values
strings; an element whose fields are missing or wrong-typed yields the
all-default object; and on the S5 payload the result is `"hi"` with
`left = "1.5"`, `top = "2"`, `width = "3"`, `height = "4"`, `conf = "0.9"`,
`text = "hi"`. -/
theorem apple_transcode_uniform :
    (∀ j s, Json.getField j "ocrResult" = .str s →
      (parse_apple_ocr_result (.ok j)).1 = s) ∧
    (∀ j elems, Json.getField j "textElements" = .arr elems →
      (parse_apple_ocr_result (.ok j)).2.length = elems.length) ∧
    (∀ r t, t ∈ (parse_apple_ocr_result r).2 →
      ∃ fields, t = .obj fields ∧ fields.map Prod.fst = uniformTokenKeys ∧
        ∀ kv ∈ fields, ∃ str, kv.2 = .str str) ∧
    transcodeTextElement .null = zeroTokenElement ∧
    parse_apple_ocr_result (.ok s5Input) = ("hi", [s5ExpectedToken]) := by
  refine ⟨fun j s h => ?_, fun j elems h => ?_, fun r t ht => ?_, rfl, rfl⟩
  · simp [parse_apple_ocr_result, h, Json.asStr]
  · simp [parse_apple_ocr_result, h, Json.asArr]
  · have hm : t ∈ List.map transcodeTextElement
        (((match r with
            | .ok v => v
            | .error _ => appleFallbackJson).getField "textElements").asArr.getD []) := ht
    rw [List.mem_map] at hm
    obtain ⟨e, _, rfl⟩ := hm
    refine ⟨_, rfl, rfl, ?_⟩
    intro kv hkv
    simp only [transcodeTextElement, List.mem_cons, List.not_mem_nil, or_false] at hkv
    rcases hkv with rfl | rfl | rfl | rfl | rfl | rfl | rfl | rfl | rfl | rfl | rfl | rfl <;>
      exact ⟨_, rfl⟩

/-! Run-level helper lemmas. -/

/-- Unfolding of a one-step run. -/
theorem runState_cons (s : CaptureState) (i : TickInput) (rest : List TickInput) :
    runState s (i :: rest) = runState (captureTick s i).1 rest := rfl

/-- A tick preserves the invariant that an absent `previous_image` entails an
empty candidate and a zero best score: every tick that touches the candidate
also records a `previous_image`. -/
theorem tick_prev_none_inv (s : CaptureState) (i : TickInput)
    (hP : s.previous_image = none → s.max_average = none ∧ s.max_avg_value = 0) :
    (captureTick s i).1.previous_image = none →
      (captureTick s i).1.max_average = none ∧ (captureTick s i).1.max_avg_value = 0 := by
  rcases hr : tickMain s i with ⟨s1, o⟩
  have hct : captureTick s i = (tickEnd s1 o, o) := by
    simp [captureTick, hr]
  rw [hct]
  simp only [tickMain] at hr
  repeat' split at hr
  all_goals simp only [Prod.mk.injEq] at hr
  all_goals obtain ⟨rfl, rfl⟩ := hr
  all_goals simp_all [tickEnd]

/-- Run form of `tick_prev_none_inv`. -/
theorem run_prev_none_inv (l : List TickInput) : ∀ s : CaptureState,
    (s.previous_image = none → s.max_average = none ∧ s.max_avg_value = 0) →
    ((runState s l).previous_image = none →
      (runState s l).max_average = none ∧ (runState s l).max_avg_value = 0) := by
  induction l with
  | nil => exact fun s hP => hP
  | cons i rest ih =>
    intro s hP
    rw [runState_cons]
    exact ih _ (tick_prev_none_inv s i hP)

/-! Claim C5. -/

/-- C5: whenever `previous_image` is absent in a reachable state, a
successful capture is scored `1.0` no matter what the scorer returned
(errors included), passes the threshold gate, and becomes the best
candidate — either dispatched on the spot or buffered in `max_average`. -/
theorem first_frame_forced_score (l : List TickInput) (i : TickInput)
    (img : Image) (ws : List WindowImage) (hsh : Nat)
    (hprev : (runState initialCaptureState l).previous_image = none)
    (hcap : i.capture = some (img, ws, hsh)) :
    (∃ s1, tickMain (runState initialCaptureState l) i
        = (s1, .offered 1 (runState initialCaptureState l).frame_counter
            (some { image := img, window_images := ws, image_hash := hsh,
                    frame_number := (runState initialCaptureState l).frame_counter,
                    timestamp := i.now, average := 1 }))) ∨
    (∃ s1, tickMain (runState initialCaptureState l) i
        = (s1, .offered 1 (runState initialCaptureState l).frame_counter none) ∧
      s1.max_average = some { image := img, window_images := ws, image_hash := hsh,
                              frame_number := (runState initialCaptureState l).frame_counter,
                              timestamp := i.now, average := 1 }) := by
  have hmax := run_prev_none_inv l initialCaptureState (fun _ => ⟨rfl, rfl⟩) hprev
  have hthr : ¬((1 : ℚ) < lowDiffThreshold) := by decide
  have hpos : (0 : ℚ) < 1 := by decide
  rcases hg : ((runState initialCaptureState l).ocr_task_running && !i.task_finishes) with _ | _
  · left
    refine ⟨(tickMain (runState initialCaptureState l) i).1, Prod.ext rfl ?_⟩
    simp [tickMain, hcap, hprev, hmax.1, hmax.2, hg, hthr, hpos]
  · right
    refine ⟨(tickMain (runState initialCaptureState l) i).1, Prod.ext rfl ?_, ?_⟩ <;>
      simp [tickMain, hcap, hprev, hmax.1, hmax.2, hg, hthr, hpos]

/-- Witness for C5 at the initial state and a concrete capture. -/
theorem first_frame_forced_score_witness :
    (∃ s1, tickMain (runState initialCaptureState []) tickDispatchInput
        = (s1, .offered 1 (runState initialCaptureState []).frame_counter
            (some { image := imgA, window_images := [], image_hash := 7,
                    frame_number := (runState initialCaptureState []).frame_counter,
                    timestamp := tickDispatchInput.now, average := 1 }))) ∨
    (∃ s1, tickMain (runState initialCaptureState []) tickDispatchInput
        = (s1, .offered 1 (runState initialCaptureState []).frame_counter none) ∧
      s1.max_average = some { image := imgA, window_images := [], image_hash := 7,
                              frame_number := (runState initialCaptureState []).frame_counter,
                              timestamp := tickDispatchInput.now, average := 1 }) :=
  first_frame_forced_score [] tickDispatchInput imgA [] 7 rfl rfl

/-! Claim C6. -/

/-- A tick with a successful capture, a present `previous_image` and a raw
score under the threshold is skipped and changes only the frame counter and
the gate. -/
theorem tick_skips (s : CaptureState) (i : TickInput) (c : Image × List WindowImage × Nat)
    (hprev : s.previous_image.isSome) (hcap : i.capture = some c)
    (hlow : rawScore i < lowDiffThreshold) :
    captureTick s i
      = ({ s with
            frame_counter := s.frame_counter + 1
            ocr_task_running := s.ocr_task_running && !i.task_finishes },
         .skipped (rawScore i)) := by
  obtain ⟨img, himg⟩ := Option.isSome_iff_exists.mp hprev
  rcases c with ⟨ci, cw, ch⟩
  simp [captureTick, tickMain, tickEnd, hcap, himg, hlow]

/-- Once some `previous_image` is present, a run of successful captures whose
raw scores are all below the threshold is skipped tick by tick. -/
theorem skip_run (rest : List TickInput) : ∀ s : CaptureState, s.previous_image.isSome →
    (∀ i ∈ rest, i.capture.isSome) → (∀ i ∈ rest, rawScore i < lowDiffThreshold) →
    runOutputs s rest = rest.map fun i => .skipped (rawScore i) := by
  induction rest with
  | nil => intros; rfl
  | cons i rest ih =>
    intro s hprev hcap hlow
    obtain ⟨c, hc⟩ := Option.isSome_iff_exists.mp (hcap i (by simp))
    have ht := tick_skips s i c hprev hc (hlow i (by simp))
    have hout : runOutputs s (i :: rest)
        = (captureTick s i).2 :: runOutputs (captureTick s i).1 rest := rfl
    rw [hout, ht, List.map_cons]
    refine congrArg _ ?_
    exact ih _ hprev (fun j hj => hcap j (List.mem_cons_of_mem i hj))
      (fun j hj => hlow j (List.mem_cons_of_mem i hj))

/-- C6: if every capture of a nonempty run succeeds and every raw pairwise
score is strictly below `0.006`, exactly one dispatch occurs — the first
frame, dispatched with the forced score `1.0` and frame number `0` — and
every later tick is skipped by the redundancy gate. -/
theorem redundancy_gate_single_dispatch (l : List TickInput)
    (hne : l ≠ [])
    (hcap : ∀ i ∈ l, i.capture.isSome)
    (hlow : ∀ i ∈ l, rawScore i < lowDiffThreshold) :
    ∃ f, f.average = 1 ∧ f.frame_number = 0 ∧
      runOutputs initialCaptureState l
        = .offered 1 0 (some f) :: (l.tail.map fun i => .skipped (rawScore i)) := by
  rcases l with _ | ⟨i0, rest⟩
  · exact absurd rfl hne
  obtain ⟨⟨img, ws, hsh⟩, hc⟩ := Option.isSome_iff_exists.mp (hcap i0 (by simp))
  have hthr : ¬((1 : ℚ) < lowDiffThreshold) := by decide
  have hpos : (0 : ℚ) < 1 := by decide
  have ht : captureTick initialCaptureState i0
      = ({ frame_counter := 1, previous_image := some img, max_average := none,
           max_avg_value := 0, ocr_task_running := true },
         .offered 1 0 (some { image := img, window_images := ws, image_hash := hsh,
                              frame_number := 0, timestamp := i0.now, average := 1 })) := by
    simp [captureTick, tickMain, tickEnd, initialCaptureState, hc, hthr, hpos]
  refine ⟨{ image := img, window_images := ws, image_hash := hsh,
            frame_number := 0, timestamp := i0.now, average := 1 }, rfl, rfl, ?_⟩
  have hout : runOutputs initialCaptureState (i0 :: rest)
      = (captureTick initialCaptureState i0).2
          :: runOutputs (captureTick initialCaptureState i0).1 rest := rfl
  rw [hout, ht, List.tail_cons]
  refine congrArg _ ?_
  exact skip_run rest _ (by simp)
    (fun j hj => hcap j (List.mem_cons_of_mem i0 hj))
    (fun j hj => hlow j (List.mem_cons_of_mem i0 hj))

/-- Witness for C6 on a two-tick run: one dispatch, then one skip. -/
theorem redundancy_gate_single_dispatch_witness :
    ∃ f, f.average = 1 ∧ f.frame_number = 0 ∧
      runOutputs initialCaptureState [tickDispatchInput, tickLowScoreInput]
        = .offered 1 0 (some f)
            :: ([tickDispatchInput, tickLowScoreInput].tail.map
                fun i => .skipped (rawScore i)) :=
  redundancy_gate_single_dispatch [tickDispatchInput, tickLowScoreInput]
    (by simp) (by decide) (by decide)

/-! Claim C10. -/

/-- Invariant of every state reached after at least one tick: the frame
counter is at least one, and any buffered candidate carries a frame number of
at least one. -/
def goodState (s : CaptureState) : Prop :=
  1 ≤ s.frame_counter ∧ ∀ f, s.max_average = some f → 1 ≤ f.frame_number

/-- Every tick preserves `goodState`. -/
theorem tick_preserves_goodState (s : CaptureState) (i : TickInput)
    (h : goodState s) : goodState ((captureTick s i).1) := by
  obtain ⟨h1, h2⟩ := h
  rcases hr : tickMain s i with ⟨s1, o⟩
  have hct : captureTick s i = (tickEnd s1 o, o) := by
    simp [captureTick, hr]
  rw [hct]
  simp only [tickMain] at hr
  repeat' split at hr
  all_goals simp only [Prod.mk.injEq] at hr
  all_goals obtain ⟨rfl, rfl⟩ := hr
  all_goals constructor
  all_goals simp_all [tickEnd]

/-- The very first tick establishes `goodState`. -/
theorem tick_initial_goodState (i : TickInput) :
    goodState ((captureTick initialCaptureState i).1) := by
  have hthr : ¬((1 : ℚ) < lowDiffThreshold) := by decide
  have hpos : (0 : ℚ) < 1 := by decide
  rcases hr : tickMain initialCaptureState i with ⟨s1, o⟩
  have hct : captureTick initialCaptureState i = (tickEnd s1 o, o) := by
    simp [captureTick, hr]
  rw [hct]
  simp only [tickMain, initialCaptureState] at hr
  repeat' split at hr
  all_goals simp only [Prod.mk.injEq] at hr
  all_goals obtain ⟨rfl, rfl⟩ := hr
  all_goals constructor
  all_goals simp_all [tickEnd]

/-- A dispatch launched from a `goodState` state carries a frame number of at
least one. -/
theorem tick_dispatch_frame_ge_one (s : CaptureState) (i : TickInput)
    (s1 : CaptureState) (sc : ℚ) (fn : Nat) (f : MaxAverageFrame)
    (hgood : goodState s) (hr : tickMain s i = (s1, .offered sc fn (some f))) :
    1 ≤ f.frame_number := by
  obtain ⟨h1, h2⟩ := hgood
  simp only [tickMain] at hr
  repeat' split at hr
  all_goals simp only [Prod.mk.injEq] at hr
  all_goals obtain ⟨rfl, hrest⟩ := hr
  all_goals injections
  all_goals (try subst_vars)
  all_goals simp_all

/-- Every dispatch of a run started in a `goodState` state carries a frame
number of at least one. -/
theorem run_dispatch_frame_ge_one (l : List TickInput) : ∀ s : CaptureState, goodState s →
    ∀ (t : Nat) (sc : ℚ) (fn : Nat) (f : MaxAverageFrame),
      (runOutputs s l)[t]? = some (TickOutput.offered sc fn (some f)) →
      1 ≤ f.frame_number := by
  induction l with
  | nil =>
    intro s _ t sc fn f h
    simp [runOutputs, runTicks] at h
  | cons i rest ih =>
    intro s hs t sc fn f h
    have hout : runOutputs s (i :: rest)
        = (captureTick s i).2 :: runOutputs (captureTick s i).1 rest := rfl
    rw [hout] at h
    rcases t with _ | t
    · simp only [List.getElem?_cons_zero, Option.some.injEq] at h
      exact tick_dispatch_frame_ge_one s i (tickMain s i).1 sc fn f hs
        (by rw [← h]; rfl)
    · simp only [List.getElem?_cons_succ] at h
      exact ih _ (tick_preserves_goodState s i hs) t sc fn f h

/-- C10: the frame counter reset by a dispatch launch is incremented at the
bottom of the same loop iteration, so the tick that launches a dispatch ends
with counter `1`; consequently, in any run from the initial state a dispatch
occurring at any tick after the first carries a frame number of at least
one, and a dispatched frame number `0` can only occur at the very first
tick — that is, in the first dispatch of the run. -/
theorem frame_number_zero_only_first_dispatch :
    (∀ s i s1 sc fn f, tickMain s i = (s1, .offered sc fn (some f)) →
      (captureTick s i).1.frame_counter = 1) ∧
    (∀ l t sc fn f,
      (runOutputs initialCaptureState l)[t]? = some (.offered sc fn (some f)) →
      (1 ≤ t → 1 ≤ f.frame_number) ∧ (f.frame_number = 0 → t = 0)) := by
  constructor
  · intro s i s1 sc fn f hr
    have hreset := (tickMain_dispatch_reset s i s1 sc fn f hr).1
    have hct : captureTick s i
        = (tickEnd s1 (.offered sc fn (some f)), .offered sc fn (some f)) := by
      simp [captureTick, hr]
    rw [hct]
    simp [tickEnd, hreset]
  · intro l t sc fn f h
    rcases l with _ | ⟨i, rest⟩
    · simp [runOutputs, runTicks] at h
    have hout : runOutputs initialCaptureState (i :: rest)
        = (captureTick initialCaptureState i).2
            :: runOutputs (captureTick initialCaptureState i).1 rest := rfl
    rw [hout] at h
    rcases t with _ | t
    · exact ⟨fun ht => absurd ht (by omega), fun _ => rfl⟩
    · simp only [List.getElem?_cons_succ] at h
      have hge := run_dispatch_frame_ge_one rest _ (tick_initial_goodState i) t sc fn f h
      exact ⟨fun _ => hge, fun h0 => absurd (h0 ▸ hge) (by omega)⟩

/-- Witness for C10: the dispatching tick ends with counter `1`, and the
dispatch at tick `0` of a concrete run. -/
theorem frame_number_zero_only_first_dispatch_witness :
    (captureTick initialCaptureState tickDispatchInput).1.frame_counter = 1 ∧
    ((1 ≤ 0 → 1 ≤ firstDispatchCand.frame_number) ∧
      (firstDispatchCand.frame_number = 0 → 0 = 0)) :=
  ⟨frame_number_zero_only_first_dispatch.1 initialCaptureState tickDispatchInput
      (tickMain initialCaptureState tickDispatchInput).1 1 0 firstDispatchCand rfl,
    frame_number_zero_only_first_dispatch.2 [tickDispatchInput] 0 1 0 firstDispatchCand rfl⟩

/-! Claim C1: election machinery. -/

/-- Characterization of a left fold of `electStep` started at an incumbent
`q`: either the incumbent survives and bounds every later offer, or the
result is some later offer that strictly beats the incumbent and everything
before it, and is not beaten by anything after it. -/
theorem electAux_spec (w : List (ℚ × Nat)) : ∀ q : ℚ × Nat,
    ((w.foldl electStep (q.1, some q)).2 = some q ∧ ∀ p ∈ w, p.1 ≤ q.1) ∨
    (∃ r w1 w2, (w.foldl electStep (q.1, some q)).2 = some r ∧ w = w1 ++ r :: w2 ∧
      q.1 < r.1 ∧ (∀ p ∈ w1, p.1 < r.1) ∧ (∀ p ∈ w2, p.1 ≤ r.1)) := by
  induction w with
  | nil =>
    intro q
    left
    exact ⟨rfl, by simp⟩
  | cons p ps ih =>
    intro q
    by_cases hpq : q.1 < p.1
    · have hstep : electStep (q.1, some q) p = (p.1, some p) := by
        simp [electStep, hpq]
      rw [List.foldl_cons, hstep]
      rcases ih p with ⟨ha, hb⟩ | ⟨r, w1, w2, ha, hb, hc, hd, he⟩
      · right
        exact ⟨p, [], ps, ha, rfl, hpq, by simp, hb⟩
      · right
        refine ⟨r, p :: w1, w2, ha, by simp [hb], lt_trans hpq hc, ?_, he⟩
        intro x hx
        rcases List.mem_cons.mp hx with rfl | hx
        · exact hc
        · exact hd x hx
    · have hstep : electStep (q.1, some q) p = (q.1, some q) := by
        simp [electStep, hpq]
      rw [List.foldl_cons, hstep]
      rcases ih q with ⟨ha, hb⟩ | ⟨r, w1, w2, ha, hb, hc, hd, he⟩
      · left
        refine ⟨ha, ?_⟩
        intro x hx
        rcases List.mem_cons.mp hx with rfl | hx
        · exact not_lt.mp hpq
        · exact hb x hx
      · right
        refine ⟨r, p :: w1, w2, ha, by simp [hb], hc, ?_, he⟩
        intro x hx
        rcases List.mem_cons.mp hx with rfl | hx
        · exact lt_of_le_of_lt (not_lt.mp hpq) hc
        · exact hd x hx

/-- The survivor of an election over a window of positive-score offers is a
maximal offer, and every offer strictly before it in the window scored
strictly less — ties are won by the earlier offer. -/
theorem electFold_best (w : List (ℚ × Nat)) (hpos : ∀ p ∈ w, 0 < p.1)
    (r : ℚ × Nat) (h : (electFold w).2 = some r) :
    (∀ p ∈ w, p.1 ≤ r.1) ∧
    ∃ w1 w2, w = w1 ++ r :: w2 ∧ ∀ q ∈ w1, q.1 < r.1 := by
  rcases w with _ | ⟨p, ps⟩
  · simp [electFold] at h
  · have hp0 : 0 < p.1 := hpos p (by simp)
    have hstep : electStep (0, none) p = (p.1, some p) := by
      simp [electStep, hp0]
    simp only [electFold, List.foldl_cons, hstep] at h
    rcases electAux_spec ps p with ⟨ha, hb⟩ | ⟨r0, w1, w2, ha, hb, hc, hd, he⟩
    · rw [ha] at h
      injection h with h
      subst h
      refine ⟨?_, [], ps, rfl, by simp⟩
      intro x hx
      rcases List.mem_cons.mp hx with rfl | hx
      · exact le_refl _
      · exact hb x hx
    · rw [ha] at h
      injection h with h
      subst h
      refine ⟨?_, p :: w1, w2, by simp [hb], ?_⟩
      · intro x hx
        rcases List.mem_cons.mp hx with rfl | hx
        · exact hc.le
        · rw [hb] at hx
          rcases List.mem_append.mp hx with hx | hx
          · exact (hd x hx).le
          · rcases List.mem_cons.mp hx with rfl | hx
            · exact le_refl _
            · exact he x hx
      · intro x hx
        rcases List.mem_cons.mp hx with rfl | hx
        · exact hc
        · exact hd x hx

/-- Appending one offer to a window folds as a single election step. -/
theorem electFold_append (w : List (ℚ × Nat)) (p : ℚ × Nat) :
    electFold (w ++ [p]) = electStep (electFold w) p := by
  simp [electFold, List.foldl_append]

/-- A tick that is neither skipped nor offered — a capture failure — leaves
the selector fields untouched. -/
theorem tick_nonoffer_preserves (s : CaptureState) (i : TickInput) (s1 : CaptureState)
    (o : TickOutput) (hr : captureTick s i = (s1, o))
    (hno : ∀ sc fn d, o ≠ .offered sc fn d) (hns : ∀ sc, o ≠ .skipped sc) :
    s1.max_average = s.max_average ∧ s1.max_avg_value = s.max_avg_value := by
  rcases hr0 : tickMain s i with ⟨a, b⟩
  have hct : captureTick s i = (tickEnd a b, b) := by
    simp [captureTick, hr0]
  rw [hct] at hr
  injection hr with h1 h2
  subst h2
  subst h1
  simp only [tickMain] at hr0
  repeat' split at hr0
  all_goals simp only [Prod.mk.injEq] at hr0
  all_goals obtain ⟨rfl, rfl⟩ := hr0
  all_goals
    first
      | (exact absurd rfl (hno _ _ _))
      | (exact absurd rfl (hns _))
      | simp_all [tickEnd]

/-- A skipped tick leaves the selector fields untouched (capture-tick
form). -/
theorem tick_skip_preserves_ct (s : CaptureState) (i : TickInput) (s1 : CaptureState)
    (sc : ℚ) (hr : captureTick s i = (s1, .skipped sc)) :
    s1.max_average = s.max_average ∧ s1.max_avg_value = s.max_avg_value := by
  rcases hr0 : tickMain s i with ⟨a, b⟩
  have hct : captureTick s i = (tickEnd a b, b) := by
    simp [captureTick, hr0]
  rw [hct] at hr
  injection hr with h1 h2
  subst h2
  subst h1
  obtain ⟨_, h2, h3⟩ := tick_skip_preserves s i a sc hr0
  simp [tickEnd, h2, h3]

/-- An offered tick performs exactly one `electStep` on the summarized
selector state: its score passed the threshold, its frame number is the
pre-tick counter, and either no dispatch occurred and the new summary is the
stepped one, or the stepped candidate was dispatched and the selector was
reset. -/
theorem tick_offer_elect (s : CaptureState) (i : TickInput) (s1 : CaptureState)
    (sc : ℚ) (fn : Nat) (d : Option MaxAverageFrame)
    (hr : captureTick s i = (s1, .offered sc fn d)) :
    lowDiffThreshold ≤ sc ∧ fn = s.frame_counter ∧
    ((d = none ∧ (s1.max_avg_value, s1.max_average.map candSummary)
        = electStep (s.max_avg_value, s.max_average.map candSummary) (sc, fn)) ∨
      (∃ f, d = some f ∧
        some (candSummary f)
          = (electStep (s.max_avg_value, s.max_average.map candSummary) (sc, fn)).2 ∧
        s1.max_average = none ∧ s1.max_avg_value = 0)) := by
  rcases hr0 : tickMain s i with ⟨a, b⟩
  have hct : captureTick s i = (tickEnd a b, b) := by
    simp [captureTick, hr0]
  rw [hct] at hr
  injection hr with h1 h2
  subst h2
  subst h1
  simp only [tickMain] at hr0
  repeat' split at hr0
  all_goals simp only [Prod.mk.injEq] at hr0
  all_goals obtain ⟨rfl, hrest⟩ := hr0
  all_goals injections
  all_goals (try subst_vars)
  all_goals simp_all [tickEnd, electStep, candSummary]
  all_goals rw [if_neg (not_lt.mpr (by assumption))]

/-- Invariant tying the selector state to the window of offers made since
the last dispatch: every offer passed the threshold, and `max_avg_value`
together with the summary of `max_average` equals the election fold of the
window. -/
def windowInv (s : CaptureState) (w : List (ℚ × Nat)) : Prop :=
  (∀ p ∈ w, lowDiffThreshold ≤ p.1) ∧
  (s.max_avg_value, s.max_average.map candSummary) = electFold w

/-- The initial state summarizes the empty window. -/
theorem windowInv_initial : windowInv initialCaptureState [] := by
  constructor
  · simp
  · rfl

/-- Every dispatch of a run whose start state summarizes its window is a
maximum of the non-skipped offers of its window, the earliest such offer on
ties. -/
theorem dispatches_spec (l : List TickInput) : ∀ (s : CaptureState) (w : List (ℚ × Nat)),
    windowInv s w →
    ∀ f ww, (f, ww) ∈ dispatchesFrom s w l →
      (∀ p ∈ ww, p.1 ≤ f.average) ∧
      ∃ w1 w2, ww = w1 ++ (f.average, f.frame_number) :: w2 ∧ ∀ q ∈ w1, q.1 < f.average := by
  induction l with
  | nil =>
    intro s w _ f ww hmem
    simp [dispatchesFrom] at hmem
  | cons i rest ih =>
    intro s w hinv f ww hmem
    rcases hr : captureTick s i with ⟨s1, o⟩
    rw [dispatchesFrom, hr] at hmem
    rcases o with _ | sc | ⟨sc, fn, d⟩
    · refine ih s1 w ⟨hinv.1, ?_⟩ f ww hmem
      obtain ⟨hm, hv⟩ := tick_nonoffer_preserves s i s1 .captureFail hr
        (fun _ _ _ h => by cases h) (fun _ h => by cases h)
      rw [hv, hm]
      exact hinv.2
    · refine ih s1 w ⟨hinv.1, ?_⟩ f ww hmem
      obtain ⟨hm, hv⟩ := tick_skip_preserves_ct s i s1 sc hr
      rw [hv, hm]
      exact hinv.2
    · obtain ⟨hthr, hfn, hcase⟩ := tick_offer_elect s i s1 sc fn d hr
      rcases hcase with ⟨rfl, hpair⟩ | ⟨f0, rfl, hsum, hnone, hzero⟩
      · refine ih s1 (w ++ [(sc, fn)]) ⟨?_, ?_⟩ f ww hmem
        · intro p hp
          rcases List.mem_append.mp hp with hp | hp
          · exact hinv.1 p hp
          · rcases List.mem_cons.mp hp with rfl | hp
            · exact hthr
            · cases hp
        · rw [electFold_append, ← hinv.2]
          exact hpair
      · rcases List.mem_cons.mp hmem with hhd | htl
        · injection hhd with hf hww
          subst hf
          subst hww
          have hwthr : ∀ p ∈ w ++ [(sc, fn)], lowDiffThreshold ≤ p.1 := by
            intro p hp
            rcases List.mem_append.mp hp with hp | hp
            · exact hinv.1 p hp
            · rcases List.mem_cons.mp hp with rfl | hp
              · exact hthr
              · cases hp
          have hpos : ∀ p ∈ w ++ [(sc, fn)], 0 < p.1 := by
            intro p hp
            exact lt_of_lt_of_le (by decide) (hwthr p hp)
          have hfold : (electFold (w ++ [(sc, fn)])).2 = some (candSummary f) := by
            rw [electFold_append, ← hinv.2]
            exact hsum.symm
          exact electFold_best (w ++ [(sc, fn)]) hpos (candSummary f) hfold
        · refine ih s1 [] ⟨by simp, ?_⟩ f ww htl
          rw [hnone, hzero]
          rfl

/-! Claim C1. -/

/-- C1: in any run from the initial state, the candidate consumed at each
dispatch scores at least every non-skipped sample offered since the previous
dispatch (the dispatching tick's own offer included), and it is the earliest
offer attaining that maximum — on a score tie the earlier candidate wins,
because the election uses strict greater-than. -/
theorem best_election_max_earliest (l : List TickInput) (f : MaxAverageFrame)
    (w : List (ℚ × Nat)) (hmem : (f, w) ∈ dispatchesFrom initialCaptureState [] l) :
    (∀ p ∈ w, p.1 ≤ f.average) ∧
    ∃ w1 w2, w = w1 ++ (f.average, f.frame_number) :: w2 ∧ ∀ q ∈ w1, q.1 < f.average :=
  dispatches_spec l initialCaptureState [] windowInv_initial f w hmem

/-- Witness for C1 on a concrete one-dispatch run. -/
theorem best_election_max_earliest_witness :
    (∀ p ∈ [((1 : ℚ), (0 : Nat))], p.1 ≤ firstDispatchCand.average) ∧
    ∃ w1 w2, [((1 : ℚ), (0 : Nat))]
        = w1 ++ (firstDispatchCand.average, firstDispatchCand.frame_number) :: w2 ∧
      ∀ q ∈ w1, q.1 < firstDispatchCand.average :=
  best_election_max_earliest [tickDispatchInput] firstDispatchCand [((1 : ℚ), (0 : Nat))]
    (by decide)

/-- Witness for C8 at the S5 payload. -/
theorem apple_transcode_uniform_witness :
    (parse_apple_ocr_result (.ok s5Input)).1 = "hi" ∧
    (parse_apple_ocr_result (.ok s5Input)).2.length =
      ((s5Input.getField "textElements").asArr.getD []).length ∧
    ∃ fields, s5ExpectedToken = .obj fields ∧ fields.map Prod.fst = uniformTokenKeys ∧
      ∀ kv ∈ fields, ∃ str, kv.2 = .str str :=
  ⟨apple_transcode_uniform.1 s5Input "hi" rfl,
    apple_transcode_uniform.2.1 s5Input ((s5Input.getField "textElements").asArr.getD []) rfl,
    apple_transcode_uniform.2.2.1 (.ok s5Input) s5ExpectedToken
      (List.mem_singleton.mpr rfl)⟩

end Screenpipe
